import Mathlib

/-
Verification of the PyHammer pipeline orchestrator (pyhammer.py, function main)
against its natural-language specification.

Strings are modelled as lists of characters. The external spectral engine
(the Spectrum object) is modelled as an abstract state machine; the
orchestrator is transcribed from the source, recording every engine call in
an operation trace and every side effect (file opens, writes, closes, user
notification, reviewer invocation, file removal) in an event trace.
-/

set_option autoImplicit false

namespace PyHammer

/-- Characters treated as whitespace by Python str.strip and str.split. -/
def pyIsSpace (c : Char) : Bool :=
  c == ' ' || c == '\t' || c == '\n' || c == '\r' || c == '\x0b' || c == '\x0c'

/-- List of characters of a Lean string literal. -/
def lit (s : String) : List Char := s.toList

/-- Python str.strip with no arguments: drop whitespace from both ends. -/
def pyStrip (l : List Char) : List Char :=
  ((l.dropWhile pyIsSpace).reverse.dropWhile pyIsSpace).reverse

/-- Helper for pySplit: acc holds the current token, reversed. -/
def pySplitAux : List Char → List Char → List (List Char)
  | acc, [] => if acc = [] then [] else [acc.reverse]
  | acc, c :: cs =>
    if pyIsSpace c then
      if acc = [] then pySplitAux [] cs else acc.reverse :: pySplitAux [] cs
    else pySplitAux (c :: acc) cs

/-- Python str.split with no arguments: split on runs of whitespace,
producing no empty tokens. -/
def pySplit (l : List Char) : List (List Char) := pySplitAux [] l

/-- Python str.join with a single-space separator. -/
def joinSpace : List (List Char) → List Char
  | [] => []
  | [t] => t
  | t :: ts => t ++ ' ' :: joinSpace ts

/-- Python str.find for a single character: index of first occurrence, or -1. -/
def pyFind (c : Char) : List Char → Int
  | [] => -1
  | x :: xs => if x == c then 0 else if pyFind c xs == -1 then -1 else pyFind c xs + 1

/-- Python s.rsplit with separator a single space and maxsplit 1, followed by
unpacking into exactly two variables: some (before, after) when the string
contains a space (split at the last space), none when the unpack would raise
ValueError because rsplit returned a single element. -/
def rsplitSpace1 (l : List Char) : Option (List Char × List Char) :=
  if ' ' ∈ l then
    some (((l.reverse.dropWhile (fun c => !(c == ' '))).tail).reverse,
          (l.reverse.takeWhile (fun c => !(c == ' '))).reverse)
  else none

/-- Manifest-line parsing, transcribed from pyhammer.py lines 69-71:
strip the line, replace commas by spaces when the first comma is at an index
strictly greater than zero, then split on whitespace, rejoin with single
spaces and split off the last token. Returns none when the final unpacking
would raise ValueError. -/
def parseLine (line : List Char) : Option (List Char × List Char) :=
  let l1 := pyStrip line
  let l2 := if 0 < pyFind ',' l1 then l1.map (fun c => if c == ',' then ' ' else c) else l1
  rsplitSpace1 (joinSpace (pySplit l2))

/-- Python message.replace applied with a newline and an empty replacement. -/
def removeNL (l : List Char) : List Char := l.filter (fun c => !(c == '\n'))

/-- Python s.count of the newline character. -/
def countNL (l : List Char) : Nat := l.count '\n'

/-- Python os.path.basename on a posix path. -/
def basename (p : List Char) : List Char :=
  (p.reverse.takeWhile (fun c => !(c == '/'))).reverse

/-- Guess record held by the engine: spectral type index into the letter
table, numeric sub-type and metallicity. -/
structure Guess where
  specType : Fin 8
  subType : ℚ
  metal : ℚ
deriving DecidableEq

/-- Result of the engine readFile call: new engine state plus the
success flag and diagnostic message the call returns. -/
structure LoadResult (σ : Type) where
  state : σ
  success : Bool
  message : List Char

/-- Abstract spectral engine: the operations of the Spectrum object that
main calls, modelled as a state machine over an opaque state type. -/
structure Engine (σ : Type) where
  readFile : σ → List Char → List Char → LoadResult σ
  calcSN : σ → σ × ℚ
  normalizeFlux : σ → σ
  guessSpecType : σ → σ
  findRadialVelocity : σ → σ × ℚ
  shiftToRest : σ → ℚ → σ
  guess : σ → Guess

/-- One engine call, as recorded in the per-item operation trace. -/
inductive EngineOp where
  | readFile (path ftype : List Char)
  | calcSN
  | normalizeFlux
  | guessSpecType
  | findRadialVelocity
  | shiftToRest (shift : ℚ)
deriving DecidableEq

/-- Renderings of Python numeric formatting: str applied to a number, and
the format call with the +2.1f specification used for the metallicity. -/
structure PyStr where
  str : ℚ → List Char
  fmt : ℚ → List Char

/-- The letter table O B A F G K M L of pyhammer.py line 132. -/
def letterSpt : Fin 8 → Char
  | 0 => 'O'
  | 1 => 'B'
  | 2 => 'A'
  | 3 => 'F'
  | 4 => 'G'
  | 5 => 'K'
  | 6 => 'M'
  | 7 => 'L'

/-- Structured accept-file data row. -/
structure AcceptRow where
  fname : List Char
  shift : ℚ
  specType : Fin 8
  subType : ℚ
  metal : ℚ
deriving DecidableEq

/-- Structured reject-file data row; none in snValue renders as N/A. -/
structure RejectRow where
  fname : List Char
  ftype : List Char
  snValue : Option ℚ
deriving DecidableEq

/-- Accept-file row string, from pyhammer.py lines 135-136. -/
def acceptRowStr (pstr : PyStr) (r : AcceptRow) : List Char :=
  r.fname ++ ',' :: pstr.str r.shift ++ ',' :: letterSpt r.specType :: pstr.str r.subType
    ++ ',' :: pstr.fmt r.metal ++ lit (",nan,nan") ++ ['\n']

/-- Reject-file row string, from pyhammer.py lines 83 and 95. -/
def rejectRowStr (pstr : PyStr) (r : RejectRow) : List Char :=
  r.fname ++ ',' :: r.ftype
    ++ ',' :: (match r.snValue with
               | none => lit ("N/A")
               | some v => pstr.str v) ++ ['\n']

/-- Outcome of processing one parsed manifest line: final engine state, the
ordered engine-call trace, at most one accept row, at most one reject row,
and the contribution to the accumulated rejectMessage narrative. -/
structure ItemOut (σ : Type) where
  state : σ
  ops : List EngineOp
  accept : Option AcceptRow
  reject : Option RejectRow
  narrative : List Char

/-- Processing of one parsed manifest line, transcribed from pyhammer.py
lines 78-136: load, optional signal-to-noise gate, then normalize, first
classification, radial-velocity estimation, rest-frame shift, second
classification, and the accept row built from the final guess. -/
def processLine {σ : Type} (E : Engine σ) (pstr : PyStr) (sncut : Option ℚ)
    (spectraPath : List Char) (st : σ) (fname ftype : List Char) : ItemOut σ :=
  let r := E.readFile st (spectraPath ++ fname) ftype
  let loadOp := EngineOp.readFile (spectraPath ++ fname) ftype
  if r.success = false then
    { state := r.state
      ops := [loadOp]
      accept := none
      reject := some { fname := fname, ftype := ftype, snValue := none }
      narrative := lit ("FILE: ") ++ fname ++ lit ("  REASON: ") ++ removeNL r.message ++ ['\n'] }
  else
    match sncut with
    | some cut =>
      let sn := E.calcSN r.state
      if sn.2 < cut then
        { state := sn.1
          ops := [loadOp, EngineOp.calcSN]
          accept := none
          reject := some { fname := fname, ftype := ftype, snValue := some sn.2 }
          narrative := lit ("FILE: ") ++ fname ++ lit ("  REASON: S/N = ") ++ pstr.str sn.2
            ++ lit (" < ") ++ pstr.str cut ++ ['\n'] }
      else
        let st2 := E.normalizeFlux sn.1
        let st3 := E.guessSpecType st2
        let rv := E.findRadialVelocity st3
        let st4 := E.shiftToRest rv.1 rv.2
        let st5 := E.guessSpecType st4
        { state := st5
          ops := [loadOp, EngineOp.calcSN, EngineOp.normalizeFlux, EngineOp.guessSpecType,
                  EngineOp.findRadialVelocity, EngineOp.shiftToRest rv.2, EngineOp.guessSpecType]
          accept := some { fname := fname, shift := rv.2, specType := (E.guess st5).specType,
                           subType := (E.guess st5).subType, metal := (E.guess st5).metal }
          reject := none
          narrative := [] }
    | none =>
      let st2 := E.normalizeFlux r.state
      let st3 := E.guessSpecType st2
      let rv := E.findRadialVelocity st3
      let st4 := E.shiftToRest rv.1 rv.2
      let st5 := E.guessSpecType st4
      { state := st5
        ops := [loadOp, EngineOp.normalizeFlux, EngineOp.guessSpecType,
                EngineOp.findRadialVelocity, EngineOp.shiftToRest rv.2, EngineOp.guessSpecType]
        accept := some { fname := fname, shift := rv.2, specType := (E.guess st5).specType,
                         subType := (E.guess st5).subType, metal := (E.guess st5).metal }
        reject := none
        narrative := [] }

/-- The per-line loop of pyhammer.py lines 67-136. Returns the outcomes of
the lines processed before any abort, and a flag that is true when a line
failed to parse, modelling the uncaught ValueError that aborts the batch. -/
def runItems {σ : Type} (E : Engine σ) (pstr : PyStr) (sncut : Option ℚ)
    (sp : List Char) : σ → List (List Char) → List (ItemOut σ) × Bool
  | _, [] => ([], false)
  | st, line :: rest =>
    match parseLine line with
    | none => ([], true)
    | some (fname, ftype) =>
      let it := processLine E pstr sncut sp st fname ftype
      let r := runItems E pstr sncut sp it.state rest
      (it :: r.1, r.2)

/-- Observable side effects of main, in order of occurrence. -/
inductive Ev where
  | openIn
  | openOut
  | openRej
  | writeOut (s : List Char)
  | writeRej (s : List Char)
  | engineOp (op : EngineOp)
  | closeIn
  | closeOut
  | closeRej
  | notify (msg : List Char)
  | removeFile (path : List Char)
  | eyecheck
deriving DecidableEq

/-- Header written to the accept file at batch start (pyhammer.py line 60). -/
def header1 : List Char :=
  lit ("#Filename,Radial Velocity (km/s),Guessed Spectral Type,Guessed Metallicity,User Spectral Type,User Metallicity\n")

/-- Header written to the reject file at batch start (pyhammer.py line 61). -/
def header2 : List Char := lit ("#Filename,File Type,Spectra S/N\n")

/-- Text prepended to the consolidated rejection narrative (lines 147-148). -/
def rejectPreamble : List Char :=
  lit ("The following is a list of rejected spectra\nalong with the reason for its rejection.\n\n")

/-- Notification text of the all-rejected early return (line 155). -/
def allBadMsg : List Char := lit ("All spectra were bad. Exiting PyHammer.")

/-- Temporary-manifest cleanup of pyhammer.py lines 157-158 and 165-166. -/
def tempCleanup (infile : List Char) : List Ev :=
  if (basename infile).take 11 = lit ("temp_input_") then [Ev.removeFile infile] else []

/-- Events produced while processing one item: its engine calls followed by
the write of its single reject or accept row. -/
def itemEvents {σ : Type} (pstr : PyStr) (it : ItemOut σ) : List Ev :=
  it.ops.map Ev.engineOp
    ++ (match it.reject with
        | some r => [Ev.writeRej (rejectRowStr pstr r)]
        | none => [])
    ++ (match it.accept with
        | some a => [Ev.writeOut (acceptRowStr pstr a)]
        | none => [])

/-- Configuration consumed by main, already validated by the entry
controller: manifest path, spectra root, skip-to-eyecheck flag and the
optional signal-to-noise floor. -/
structure Opts where
  infile : List Char
  spectraPath : List Char
  eyecheck : Bool
  sncut : Option ℚ

/-- Result of a run of main: the event trace, plus whether the run was
aborted by an uncaught exception from the per-line loop. -/
structure MainResult where
  events : List Ev
  aborted : Bool
deriving DecidableEq

/-- The function main of pyhammer.py, lines 48-166. The manifest contents
are given as some list of lines, or none when opening the manifest raises
IOError with the given rendered message. -/
def pyMain {σ : Type} (E : Engine σ) (pstr : PyStr) (o : Opts)
    (infileLines : Option (List (List Char))) (ioErrMsg : List Char) (st : σ) : MainResult :=
  if o.eyecheck then
    { events := Ev.eyecheck :: tempCleanup o.infile, aborted := false }
  else
    match infileLines with
    | none => { events := [Ev.notify ioErrMsg], aborted := false }
    | some lines =>
      let r := runItems E pstr o.sncut o.spectraPath st lines
      let pre := Ev.openIn :: Ev.openOut :: Ev.openRej :: Ev.writeOut header1
        :: Ev.writeRej header2 :: (r.1.map (itemEvents pstr)).flatten
      if r.2 then { events := pre, aborted := true }
      else
        let closes := [Ev.closeIn, Ev.closeOut, Ev.closeRej]
        let rm := (r.1.map ItemOut.narrative).flatten
        if rm = [] then
          { events := pre ++ closes ++ Ev.eyecheck :: tempCleanup o.infile, aborted := false }
        else
          let full := rejectPreamble ++ rm
          if countNL full = (lines.length - 1) + 4 then
            { events := pre ++ closes ++ Ev.notify full :: Ev.notify allBadMsg :: tempCleanup o.infile,
              aborted := false }
          else
            { events := pre ++ closes ++ Ev.notify full :: Ev.eyecheck :: tempCleanup o.infile,
              aborted := false }

/-- Strings written to the accept file during a run, in order. -/
def outWrites (r : MainResult) : List (List Char) :=
  r.events.filterMap (fun e => match e with | Ev.writeOut s => some s | _ => none)

/-- Strings written to the reject file during a run, in order. -/
def rejWrites (r : MainResult) : List (List Char) :=
  r.events.filterMap (fun e => match e with | Ev.writeRej s => some s | _ => none)

/-- States reached by the happy path after the gates: the state after
normalization and the first classification. -/
def afterFirstGuess {σ : Type} (E : Engine σ) (st : σ) : σ :=
  E.guessSpecType (E.normalizeFlux st)

/-- Radial-velocity point estimate made from the first-pass guess. -/
def rvEstimate {σ : Type} (E : Engine σ) (st : σ) : ℚ :=
  (E.findRadialVelocity (afterFirstGuess E st)).2

/-- State after the rest-frame shift and the second classification. -/
def afterSecondGuess {σ : Type} (E : Engine σ) (st : σ) : σ :=
  E.guessSpecType (E.shiftToRest (E.findRadialVelocity (afterFirstGuess E st)).1
    (E.findRadialVelocity (afterFirstGuess E st)).2)

/-- Accept row produced by the happy path from the state that passed the
gates: radial velocity from the single estimate, type fields from the
guess after the second classification. -/
def happyAccept {σ : Type} (E : Engine σ) (st : σ) (f : List Char) : AcceptRow :=
  { fname := f, shift := rvEstimate E st
    specType := (E.guess (afterSecondGuess E st)).specType
    subType := (E.guess (afterSecondGuess E st)).subType
    metal := (E.guess (afterSecondGuess E st)).metal }

/-- Engine calls of the happy path after the gates, in order. -/
def happyOps {σ : Type} (E : Engine σ) (st : σ) : List EngineOp :=
  [EngineOp.normalizeFlux, EngineOp.guessSpecType, EngineOp.findRadialVelocity,
   EngineOp.shiftToRest (rvEstimate E st), EngineOp.guessSpecType]

/-- Concrete engine over a unit state used to evaluate the model on
specific inputs: load succeeds or fails uniformly, the signal-to-noise
value and the radial-velocity estimate are the given constants. -/
def unitEngine (ok : Bool) (sn shift : ℚ) : Engine Unit :=
  { readFile := fun _ _ _ => { state := (), success := ok, message := lit ("could not read file") }
    calcSN := fun _ => ((), sn)
    normalizeFlux := fun _ => ()
    guessSpecType := fun _ => ()
    findRadialVelocity := fun _ => ((), shift)
    shiftToRest := fun _ _ => ()
    guess := fun _ => { specType := 0, subType := 0, metal := 0 } }

/-- Concrete numeric renderer used to evaluate the model. -/
def pstr0 : PyStr := { str := fun _ => ['0'], fmt := fun _ => ['0'] }

/-- Concrete run configuration used to evaluate the model. -/
def o0 : Opts := { infile := lit ("in.txt"), spectraPath := [], eyecheck := false, sncut := none }

/-- Concrete run configuration with a signal-to-noise floor of five. -/
def o5 : Opts := { infile := lit ("in.txt"), spectraPath := [], eyecheck := false, sncut := some 5 }

/-! Helper lemmas about the string primitives. -/

theorem mem_of_mem_pyStrip {c : Char} {l : List Char} (h : c ∈ pyStrip l) : c ∈ l := by
  unfold pyStrip at h
  rw [List.mem_reverse] at h
  have h1 := (List.dropWhile_sublist (l := (l.dropWhile pyIsSpace).reverse) pyIsSpace).mem h
  rw [List.mem_reverse] at h1
  exact (List.dropWhile_sublist pyIsSpace).mem h1

theorem mem_of_mem_pySplitAux {c : Char} {t : List Char} :
    ∀ (l acc : List Char), t ∈ pySplitAux acc l → c ∈ t → c ∈ acc ∨ c ∈ l := by
  intro l
  induction l with
  | nil =>
    intro acc ht hc
    unfold pySplitAux at ht
    by_cases hacc : acc = []
    · simp [hacc] at ht
    · simp [hacc] at ht
      subst ht
      exact Or.inl (List.mem_reverse.mp hc)
  | cons x xs ih =>
    intro acc ht hc
    unfold pySplitAux at ht
    by_cases hx : pyIsSpace x
    · simp [hx] at ht
      by_cases hacc : acc = []
      · simp [hacc] at ht
        rcases ih [] ht hc with h | h
        · simp at h
        · exact Or.inr (List.mem_cons_of_mem _ h)
      · simp [hacc] at ht
        rcases ht with ht | ht
        · subst ht
          exact Or.inl (List.mem_reverse.mp hc)
        · rcases ih [] ht hc with h | h
          · simp at h
          · exact Or.inr (List.mem_cons_of_mem _ h)
    · simp [hx] at ht
      rcases ih (x :: acc) ht hc with h | h
      · rcases List.mem_cons.mp h with h | h
        · exact Or.inr (h ▸ List.mem_cons_self x xs)
        · exact Or.inl h
      · exact Or.inr (List.mem_cons_of_mem _ h)

theorem mem_of_mem_pySplit {c : Char} {t l : List Char} (ht : t ∈ pySplit l) (hc : c ∈ t) :
    c ∈ l := by
  rcases mem_of_mem_pySplitAux l [] ht hc with h | h
  · simp at h
  · exact h

theorem mem_joinSpace {c : Char} : ∀ {ts : List (List Char)},
    c ∈ joinSpace ts → (∃ t ∈ ts, c ∈ t) ∨ c = ' '
  | [], h => by simp [joinSpace] at h
  | [t], h => by
    simp [joinSpace] at h
    exact Or.inl ⟨t, by simp, h⟩
  | t :: u :: ts, h => by
    rw [joinSpace] at h
    case x_1 => simp
    rcases List.mem_append.mp h with h | h
    · exact Or.inl ⟨t, by simp, h⟩
    · rcases List.mem_cons.mp h with h | h
      · exact Or.inr h
      · rcases mem_joinSpace h with ⟨t', ht', hc'⟩ | h
        · exact Or.inl ⟨t', List.mem_cons_of_mem _ ht', hc'⟩
        · exact Or.inr h

theorem mem_of_rsplitSpace1_left {c : Char} {l a b : List Char}
    (h : rsplitSpace1 l = some (a, b)) (hc : c ∈ a) : c ∈ l := by
  unfold rsplitSpace1 at h
  by_cases hs : ' ' ∈ l
  · simp [hs] at h
    have ha := h.1
    subst ha
    rw [List.mem_reverse] at hc
    have h1 := (List.tail_sublist ((l.reverse.dropWhile (fun c => !(c == ' '))))).mem hc
    have h2 := (List.dropWhile_sublist (l := l.reverse) (fun c => !(c == ' '))).mem h1
    exact List.mem_reverse.mp h2
  · simp [hs] at h

theorem mem_of_parseLine_left {c : Char} {line f t : List Char}
    (h : parseLine line = some (f, t)) (hc : c ∈ f) : c ∈ line ∨ c = ' ' := by
  unfold parseLine at h
  have hj := mem_of_rsplitSpace1_left h hc
  rcases mem_joinSpace hj with ⟨tok, htok, hctok⟩ | hsp
  · have hl2 := mem_of_mem_pySplit htok hctok
    by_cases hfind : 0 < pyFind ',' (pyStrip line)
    · simp only [hfind, if_pos] at hl2
      rcases List.mem_map.mp hl2 with ⟨a, ha, hfa⟩
      by_cases hcomma : a == ','
      · simp [hcomma] at hfa
        exact Or.inr hfa.symm
      · simp [hcomma] at hfa
        exact Or.inl (mem_of_mem_pyStrip (hfa ▸ ha))
    · simp only [hfind, if_neg, if_false] at hl2
      exact Or.inl (mem_of_mem_pyStrip hl2)
  · exact Or.inr hsp

theorem newline_notin_parseLine_fname {line f t : List Char}
    (h : parseLine line = some (f, t)) (hline : ('\n' : Char) ∉ line) :
    ('\n' : Char) ∉ f := by
  intro hf
  rcases mem_of_parseLine_left h hf with h' | h'
  · exact hline h'
  · exact absurd h' (by decide)

theorem pyFind_ge_neg_one (c : Char) : ∀ (l : List Char), -1 ≤ pyFind c l := by
  intro l
  induction l with
  | nil => simp [pyFind]
  | cons x xs ih =>
    rw [pyFind]
    by_cases hx : x == c
    · simp [hx]
    · simp only [hx, Bool.false_eq_true, if_false]
      by_cases hr : pyFind c xs == -1
      · simp [hr]
      · simp only [hr, Bool.false_eq_true, if_false]
        omega

theorem pyFind_eq_neg_one {c : Char} : ∀ (l : List Char), pyFind c l = -1 ↔ c ∉ l := by
  intro l
  induction l with
  | nil => simp [pyFind]
  | cons x xs ih =>
    rw [pyFind]
    by_cases hx : x == c
    · have hx' : x = c := by simpa using hx
      simp [hx, hx']
    · have hx' : ¬(x = c) := by simpa using hx
      simp only [hx, Bool.false_eq_true, if_false]
      by_cases hr : pyFind c xs == -1
      · have hr' : pyFind c xs = -1 := by simpa using hr
        have hcx : ¬(c = x) := fun h => hx' h.symm
        simp [hr, ih.mp hr', hx', hcx]
      · have hr' : ¬(pyFind c xs = -1) := by simpa using hr
        have hmem : c ∈ xs := by
          by_contra hn
          exact hr' (ih.mpr hn)
        have := pyFind_ge_neg_one c xs
        simp only [hr, Bool.false_eq_true, if_false]
        constructor
        · intro h
          omega
        · intro h
          exact absurd (List.mem_cons_of_mem x hmem) h

theorem pyFind_nonneg_of_mem {c : Char} {l : List Char} (h : c ∈ l) : 0 ≤ pyFind c l := by
  have h1 := pyFind_ge_neg_one c l
  have h2 : ¬(pyFind c l = -1) := fun he => (pyFind_eq_neg_one l).mp he h
  omega

theorem pyFind_pos_of_head_ne {c x : Char} {xs : List Char} (hx : ¬(x = c)) (hmem : c ∈ xs) :
    0 < pyFind c (x :: xs) := by
  rw [pyFind]
  have hb : (x == c) = false := by simpa using hx
  have hr : ¬(pyFind c xs = -1) := fun he => (pyFind_eq_neg_one xs).mp he hmem
  have hrb : (pyFind c xs == -1) = false := by simpa using hr
  have := pyFind_nonneg_of_mem hmem
  simp only [hb, Bool.false_eq_true, if_false, hrb]
  omega

theorem takeWhile_append_sep {p : Char → Bool} :
    ∀ (l1 : List Char) (x : Char) (l2 : List Char), (∀ c ∈ l1, p c = true) → p x = false →
      (l1 ++ x :: l2).takeWhile p = l1 ∧ (l1 ++ x :: l2).dropWhile p = x :: l2 := by
  intro l1
  induction l1 with
  | nil =>
    intro x l2 _ hx
    simp [List.takeWhile_cons, List.dropWhile_cons, hx]
  | cons a as ih =>
    intro x l2 hall hx
    have ha : p a = true := hall a (List.mem_cons_self a as)
    have ih' := ih x l2 (fun c hc => hall c (List.mem_cons_of_mem a hc)) hx
    simp [List.takeWhile_cons, List.dropWhile_cons, ha, ih'.1, ih'.2]

theorem takeWhile_all {p : Char → Bool} :
    ∀ {l : List Char}, (∀ c ∈ l, p c = true) → l.takeWhile p = l := by
  intro l
  induction l with
  | nil => simp
  | cons a as ih =>
    intro hall
    have ha : p a = true := hall a (List.mem_cons_self a as)
    simp [List.takeWhile_cons, ha, ih (fun c hc => hall c (List.mem_cons_of_mem a hc))]

theorem pyStrip_sep {path tag : List Char} {m : Char}
    (hp0 : path ≠ []) (ht0 : tag ≠ [])
    (hp : ∀ c ∈ path, pyIsSpace c = false) (ht : ∀ c ∈ tag, pyIsSpace c = false) :
    pyStrip (path ++ m :: tag) = path ++ m :: tag := by
  have hrw : (path ++ m :: tag).reverse = tag.reverse ++ m :: path.reverse := by
    rw [List.reverse_append, List.reverse_cons, List.append_assoc]
    rfl
  have h1 : (path ++ m :: tag).dropWhile pyIsSpace = path ++ m :: tag := by
    rcases List.exists_cons_of_ne_nil hp0 with ⟨a, as, rfl⟩
    have ha : pyIsSpace a = false := hp a (List.mem_cons_self a as)
    rw [List.cons_append, List.dropWhile_cons]
    simp [ha]
  have h2 : (tag.reverse ++ m :: path.reverse).dropWhile pyIsSpace
      = tag.reverse ++ m :: path.reverse := by
    rcases List.exists_cons_of_ne_nil (List.reverse_ne_nil_iff.mpr ht0) with ⟨b, bs, hb⟩
    have hbtag : b ∈ tag := List.mem_reverse.mp (hb ▸ List.mem_cons_self b bs)
    have hbs : pyIsSpace b = false := ht b hbtag
    rw [hb, List.cons_append, List.dropWhile_cons]
    simp [hbs]
  unfold pyStrip
  rw [h1, hrw, h2, ← hrw, List.reverse_reverse]

theorem pySplitAux_token {tok : List Char} (htok : ∀ c ∈ tok, pyIsSpace c = false) :
    ∀ (acc rest : List Char), pySplitAux acc (tok ++ rest) = pySplitAux (tok.reverse ++ acc) rest := by
  induction tok with
  | nil => intro acc rest; simp
  | cons a as ih =>
    intro acc rest
    have ha : pyIsSpace a = false := htok a (List.mem_cons_self a as)
    rw [List.cons_append, pySplitAux]
    simp only [ha, Bool.false_eq_true, if_false]
    rw [ih (fun c hc => htok c (List.mem_cons_of_mem a hc)) (a :: acc) rest,
      List.reverse_cons, List.append_assoc]
    rfl

theorem pySplit_pair {path tag : List Char}
    (hp0 : path ≠ []) (ht0 : tag ≠ [])
    (hp : ∀ c ∈ path, pyIsSpace c = false) (ht : ∀ c ∈ tag, pyIsSpace c = false) :
    pySplit (path ++ ' ' :: tag) = [path, tag] := by
  unfold pySplit
  rw [pySplitAux_token hp [] (' ' :: tag), pySplitAux]
  have hsp : pyIsSpace ' ' = true := by decide
  have hne : ¬(path.reverse ++ [] = ([] : List Char)) := by
    simp [List.reverse_eq_nil_iff, hp0]
  simp only [hsp, if_true, List.append_nil]
  rw [if_neg (by simpa using hne)]
  rw [show tag = tag ++ [] from (List.append_nil tag).symm]
  rw [pySplitAux_token ht [] [], pySplitAux]
  have hne2 : ¬(tag.reverse ++ [] = ([] : List Char)) := by
    simp [List.reverse_eq_nil_iff, ht0]
  rw [if_neg (by simpa using hne2)]
  simp

theorem rsplitSpace1_pair {path tag : List Char}
    (ht : ∀ c ∈ tag, ¬(c = ' ')) :
    rsplitSpace1 (path ++ ' ' :: tag) = some (path, tag) := by
  unfold rsplitSpace1
  have hmem : ' ' ∈ path ++ ' ' :: tag := by simp
  rw [if_pos hmem]
  have hq : ∀ c ∈ tag.reverse, (fun c => !(c == ' ')) c = true := by
    intro c hc
    simpa using ht c (List.mem_reverse.mp hc)
  have hsp : (fun c => !(c == ' ')) ' ' = false := by decide
  have hrw : (path ++ ' ' :: tag).reverse = tag.reverse ++ ' ' :: path.reverse := by
    rw [List.reverse_append, List.reverse_cons, List.append_assoc]
    rfl
  rw [hrw, (takeWhile_append_sep tag.reverse ' ' path.reverse hq hsp).1,
    (takeWhile_append_sep tag.reverse ' ' path.reverse hq hsp).2]
  simp

/-! Claim C5: manifest-line parsing with commas. -/

/-- Claim C5, counterexample. The claim states that a line of the form
path-comma-formatTag parses to the same (path, formatTag) pair as the
space-separated form for every position of the comma, including the first
character. When the comma is the first character of the line (empty path),
the code's test find-comma strictly-greater-than zero skips normalization
and neither form parses into a pair at all: the tuple unpacking raises
ValueError, here modelled as none. -/
theorem c5_counterexample :
    parseLine (lit (",fits")) = none ∧ parseLine (lit (" fits")) = none := by
  decide

/-- Claim C5, amended: for every line of the form path-comma-formatTag in
which path and formatTag are nonempty tokens free of whitespace and commas
(so the separator comma sits strictly after the first character), commas
are normalized to whitespace and the line parses to the same (path,
formatTag) pair as the space-separated form; with the comma as the first
character, neither form parses (see the counterexample). -/
theorem c5_comma_equiv (path tag : List Char)
    (hp0 : path ≠ []) (ht0 : tag ≠ [])
    (hp : ∀ c ∈ path, pyIsSpace c = false ∧ ¬(c = ','))
    (ht : ∀ c ∈ tag, pyIsSpace c = false ∧ ¬(c = ',')) :
    parseLine (path ++ ',' :: tag) = some (path, tag)
    ∧ parseLine (path ++ ' ' :: tag) = some (path, tag) := by
  have hpS : ∀ c ∈ path, pyIsSpace c = false := fun c hc => (hp c hc).1
  have hpC : ∀ c ∈ path, ¬(c = ',') := fun c hc => (hp c hc).2
  have htS : ∀ c ∈ tag, pyIsSpace c = false := fun c hc => (ht c hc).1
  have htC : ∀ c ∈ tag, ¬(c = ',') := fun c hc => (ht c hc).2
  have htSp : ∀ c ∈ tag, ¬(c = ' ') := by
    intro c hc h
    have := htS c hc
    rw [h] at this
    exact absurd this (by decide)
  have hjoin : joinSpace [path, tag] = path ++ ' ' :: tag := rfl
  constructor
  · have hfind : 0 < pyFind ',' (path ++ ',' :: tag) := by
      rcases List.exists_cons_of_ne_nil hp0 with ⟨a, as, ha⟩
      rw [ha, List.cons_append]
      exact pyFind_pos_of_head_ne (hpC a (ha ▸ List.mem_cons_self a as)) (by simp)
    have hfp : ∀ c ∈ path, (fun c => if c == ',' then ' ' else c) c = id c := by
      intro c hc
      have hcc : (c == ',') = false := by simpa using hpC c hc
      simp [hcc]
    have hft : ∀ c ∈ tag, (fun c => if c == ',' then ' ' else c) c = id c := by
      intro c hc
      have hcc : (c == ',') = false := by simpa using htC c hc
      simp [hcc]
    have hmap : (path ++ ',' :: tag).map (fun c => if c == ',' then ' ' else c)
        = path ++ ' ' :: tag := by
      rw [List.map_append, List.map_cons, List.map_congr_left hfp, List.map_id,
        List.map_congr_left hft, List.map_id]
      rfl
    simp only [parseLine]
    rw [pyStrip_sep hp0 ht0 hpS htS, if_pos hfind, hmap,
      pySplit_pair hp0 ht0 hpS htS, hjoin]
    exact rsplitSpace1_pair htSp
  · have hninc : (',' : Char) ∉ path ++ ' ' :: tag := by
      intro hmem
      rcases List.mem_append.mp hmem with h | h
      · exact hpC ',' h rfl
      · rcases List.mem_cons.mp h with h | h
        · exact absurd h (by decide)
        · exact htC ',' h rfl
    have hfind2 : ¬(0 < pyFind ',' (path ++ ' ' :: tag)) := by
      intro habs
      rw [(pyFind_eq_neg_one _).mpr hninc] at habs
      exact absurd habs (by decide)
    simp only [parseLine]
    rw [pyStrip_sep hp0 ht0 hpS htS, if_neg hfind2, pySplit_pair hp0 ht0 hpS htS, hjoin]
    exact rsplitSpace1_pair htSp

/-- Claim C5, witness: the amended theorem evaluated on the concrete line
star001.fits comma fits versus the space-separated form. -/
theorem c5_comma_equiv_witness :
    parseLine (lit ("star001.fits,fits")) = some (lit ("star001.fits"), lit ("fits"))
    ∧ parseLine (lit ("star001.fits fits")) = some (lit ("star001.fits"), lit ("fits")) :=
  c5_comma_equiv (lit ("star001.fits")) (lit ("fits")) (by decide) (by decide)
    (by decide) (by decide)

/-! Helper lemmas about the processing of a single parsed manifest line. -/

theorem countNL_append (a b : List Char) : countNL (a ++ b) = countNL a + countNL b :=
  List.count_append '\n' a b

theorem countNL_removeNL (l : List Char) : countNL (removeNL l) = 0 := by
  rw [countNL, List.count_eq_zero]
  intro h
  have := (List.mem_filter.mp h).2
  simp at this

theorem countNL_eq_zero_of_notin {l : List Char} (h : ('\n' : Char) ∉ l) : countNL l = 0 :=
  List.count_eq_zero.mpr h

/-- Unfolding of processLine in the load-failure branch. -/
theorem processLine_eq_load_fail {σ : Type} (E : Engine σ) (pstr : PyStr) (sncut : Option ℚ)
    (sp : List Char) (st : σ) (f t : List Char)
    (hs : (E.readFile st (sp ++ f) t).success = false) :
    processLine E pstr sncut sp st f t =
      { state := (E.readFile st (sp ++ f) t).state
        ops := [EngineOp.readFile (sp ++ f) t]
        accept := none
        reject := some { fname := f, ftype := t, snValue := none }
        narrative := lit ("FILE: ") ++ f ++ lit ("  REASON: ")
          ++ removeNL (E.readFile st (sp ++ f) t).message ++ ['\n'] } := by
  unfold processLine
  simp [hs]

/-- Unfolding of processLine in the below-floor quality-reject branch. -/
theorem processLine_eq_sn_reject {σ : Type} (E : Engine σ) (pstr : PyStr) (c : ℚ)
    (sp : List Char) (st : σ) (f t : List Char)
    (hs : (E.readFile st (sp ++ f) t).success = true)
    (hlt : (E.calcSN (E.readFile st (sp ++ f) t).state).2 < c) :
    processLine E pstr (some c) sp st f t =
      { state := (E.calcSN (E.readFile st (sp ++ f) t).state).1
        ops := [EngineOp.readFile (sp ++ f) t, EngineOp.calcSN]
        accept := none
        reject := some { fname := f, ftype := t
                         snValue := some (E.calcSN (E.readFile st (sp ++ f) t).state).2 }
        narrative := lit ("FILE: ") ++ f ++ lit ("  REASON: S/N = ")
          ++ pstr.str (E.calcSN (E.readFile st (sp ++ f) t).state).2
          ++ lit (" < ") ++ pstr.str c ++ ['\n'] } := by
  unfold processLine
  simp [hs, hlt]

/-- Unfolding of processLine in the happy path with a configured floor the
measured value does not fall below. -/
theorem processLine_eq_accept_floor {σ : Type} (E : Engine σ) (pstr : PyStr) (c : ℚ)
    (sp : List Char) (st : σ) (f t : List Char)
    (hs : (E.readFile st (sp ++ f) t).success = true)
    (hge : ¬((E.calcSN (E.readFile st (sp ++ f) t).state).2 < c)) :
    processLine E pstr (some c) sp st f t =
      { state := afterSecondGuess E (E.calcSN (E.readFile st (sp ++ f) t).state).1
        ops := EngineOp.readFile (sp ++ f) t :: EngineOp.calcSN
          :: happyOps E (E.calcSN (E.readFile st (sp ++ f) t).state).1
        accept := some (happyAccept E (E.calcSN (E.readFile st (sp ++ f) t).state).1 f)
        reject := none
        narrative := [] } := by
  unfold processLine
  simp [hs, hge, happyOps, happyAccept, rvEstimate, afterSecondGuess, afterFirstGuess]

/-- Unfolding of processLine in the happy path with no configured floor. -/
theorem processLine_eq_accept_nofloor {σ : Type} (E : Engine σ) (pstr : PyStr)
    (sp : List Char) (st : σ) (f t : List Char)
    (hs : (E.readFile st (sp ++ f) t).success = true) :
    processLine E pstr none sp st f t =
      { state := afterSecondGuess E (E.readFile st (sp ++ f) t).state
        ops := EngineOp.readFile (sp ++ f) t
          :: happyOps E (E.readFile st (sp ++ f) t).state
        accept := some (happyAccept E (E.readFile st (sp ++ f) t).state f)
        reject := none
        narrative := [] } := by
  unfold processLine
  simp [hs, happyOps, happyAccept, rvEstimate, afterSecondGuess, afterFirstGuess]

/-- Every processed item carries exactly one row: an accept row and no
reject row, or a reject row and no accept row. -/
theorem processLine_one_row {σ : Type} (E : Engine σ) (pstr : PyStr) (sncut : Option ℚ)
    (sp : List Char) (st : σ) (f t : List Char) :
    ((processLine E pstr sncut sp st f t).accept.isSome
        ∧ (processLine E pstr sncut sp st f t).reject = none)
    ∨ ((processLine E pstr sncut sp st f t).accept = none
        ∧ (processLine E pstr sncut sp st f t).reject.isSome) := by
  by_cases hs : (E.readFile st (sp ++ f) t).success = false
  · rw [processLine_eq_load_fail E pstr sncut sp st f t hs]
    simp
  · have hs' : (E.readFile st (sp ++ f) t).success = true := by
      simpa using hs
    cases sncut with
    | none =>
      rw [processLine_eq_accept_nofloor E pstr sp st f t hs']
      simp
    | some c =>
      by_cases hlt : (E.calcSN (E.readFile st (sp ++ f) t).state).2 < c
      · rw [processLine_eq_sn_reject E pstr c sp st f t hs' hlt]
        simp
      · rw [processLine_eq_accept_floor E pstr c sp st f t hs' hlt]
        simp

/-- An item is rejected exactly when its load fails or a configured
signal-to-noise floor exceeds the measured value. -/
theorem processLine_reject_iff {σ : Type} (E : Engine σ) (pstr : PyStr) (sncut : Option ℚ)
    (sp : List Char) (st : σ) (f t : List Char) :
    (processLine E pstr sncut sp st f t).reject.isSome = true ↔
      ((E.readFile st (sp ++ f) t).success = false
        ∨ ∃ c, sncut = some c ∧ (E.calcSN (E.readFile st (sp ++ f) t).state).2 < c) := by
  by_cases hs : (E.readFile st (sp ++ f) t).success = false
  · rw [processLine_eq_load_fail E pstr sncut sp st f t hs]
    simp [hs]
  · have hs' : (E.readFile st (sp ++ f) t).success = true := by simpa using hs
    cases sncut with
    | none =>
      rw [processLine_eq_accept_nofloor E pstr sp st f t hs']
      simp [hs]
    | some c =>
      by_cases hlt : (E.calcSN (E.readFile st (sp ++ f) t).state).2 < c
      · rw [processLine_eq_sn_reject E pstr c sp st f t hs' hlt]
        simp [hlt]
      · rw [processLine_eq_accept_floor E pstr c sp st f t hs' hlt]
        simp [hs, hlt]

/-- The narrative contribution of an item contains exactly one newline when
the item is rejected and none otherwise, provided the parsed filename and
the numeric renderings are newline-free. -/
theorem processLine_countNL {σ : Type} (E : Engine σ) (pstr : PyStr) (sncut : Option ℚ)
    (sp : List Char) (st : σ) (f t : List Char)
    (hf : ('\n' : Char) ∉ f) (hstr : ∀ q : ℚ, ('\n' : Char) ∉ pstr.str q) :
    countNL (processLine E pstr sncut sp st f t).narrative
      = if (processLine E pstr sncut sp st f t).reject.isSome then 1 else 0 := by
  have hone : countNL (['\n']) = 1 := by decide
  have hfile : countNL (lit ("FILE: ")) = 0 := by decide
  by_cases hs : (E.readFile st (sp ++ f) t).success = false
  · rw [processLine_eq_load_fail E pstr sncut sp st f t hs]
    simp only [Option.isSome_some, if_true]
    simp [countNL_append, countNL_eq_zero_of_notin hf, countNL_removeNL, hone, hfile]
    decide
  · have hs' : (E.readFile st (sp ++ f) t).success = true := by simpa using hs
    cases sncut with
    | none =>
      rw [processLine_eq_accept_nofloor E pstr sp st f t hs']
      simp [countNL]
    | some c =>
      by_cases hlt : (E.calcSN (E.readFile st (sp ++ f) t).state).2 < c
      · rw [processLine_eq_sn_reject E pstr c sp st f t hs' hlt]
        simp only [Option.isSome_some, if_true]
        have hv := countNL_eq_zero_of_notin
          (hstr (E.calcSN (E.readFile st (sp ++ f) t).state).2)
        have hc := countNL_eq_zero_of_notin (hstr c)
        simp [countNL_append, countNL_eq_zero_of_notin hf, hv, hc, hone, hfile]
        decide
      · rw [processLine_eq_accept_floor E pstr c sp st f t hs' hlt]
        simp [countNL]

/-- The narrative contribution of an item is nonempty exactly when the item
is rejected. -/
theorem processLine_narrative_ne {σ : Type} (E : Engine σ) (pstr : PyStr) (sncut : Option ℚ)
    (sp : List Char) (st : σ) (f t : List Char) :
    (processLine E pstr sncut sp st f t).reject.isSome = true ↔
      (processLine E pstr sncut sp st f t).narrative ≠ [] := by
  by_cases hs : (E.readFile st (sp ++ f) t).success = false
  · rw [processLine_eq_load_fail E pstr sncut sp st f t hs]
    simp [lit]
  · have hs' : (E.readFile st (sp ++ f) t).success = true := by simpa using hs
    cases sncut with
    | none =>
      rw [processLine_eq_accept_nofloor E pstr sp st f t hs']
      simp
    | some c =>
      by_cases hlt : (E.calcSN (E.readFile st (sp ++ f) t).state).2 < c
      · rw [processLine_eq_sn_reject E pstr c sp st f t hs' hlt]
        simp [lit]
      · rw [processLine_eq_accept_floor E pstr c sp st f t hs' hlt]
        simp

/-! Claims about the processing of a single spectrum. -/

/-- Claim C3: for every spectrum that passes the load and quality gates,
the engine operations after the gates run in the exact order normalize,
first classification, one velocity estimation, one rest-frame shift,
second classification; exactly one findRadialVelocity call is made; the
accept row's spectral type, sub-type and metallicity are read from the
guess as it stands after the second classification call, and the radial
velocity written is the single estimate anchored on the first pass. -/
theorem c3_engine_order {σ : Type} (E : Engine σ) (pstr : PyStr) (sncut : Option ℚ)
    (sp : List Char) (st : σ) (fname ftype : List Char)
    (hs : (E.readFile st (sp ++ fname) ftype).success = true)
    (hgate : ∀ c, sncut = some c →
      ¬((E.calcSN (E.readFile st (sp ++ fname) ftype).state).2 < c)) :
    ∃ stG : σ,
      ((sncut = none ∧ stG = (E.readFile st (sp ++ fname) ftype).state
          ∧ (processLine E pstr sncut sp st fname ftype).ops
            = EngineOp.readFile (sp ++ fname) ftype :: happyOps E stG)
        ∨ (∃ c, sncut = some c
          ∧ stG = (E.calcSN (E.readFile st (sp ++ fname) ftype).state).1
          ∧ (processLine E pstr sncut sp st fname ftype).ops
            = EngineOp.readFile (sp ++ fname) ftype :: EngineOp.calcSN :: happyOps E stG))
      ∧ (processLine E pstr sncut sp st fname ftype).ops.count EngineOp.findRadialVelocity = 1
      ∧ (processLine E pstr sncut sp st fname ftype).accept = some (happyAccept E stG fname)
      ∧ (processLine E pstr sncut sp st fname ftype).reject = none
      ∧ (processLine E pstr sncut sp st fname ftype).state = afterSecondGuess E stG := by
  cases sncut with
  | none =>
    refine ⟨(E.readFile st (sp ++ fname) ftype).state, Or.inl ⟨rfl, rfl, ?_⟩, ?_, ?_, ?_, ?_⟩ <;>
      rw [processLine_eq_accept_nofloor E pstr sp st fname ftype hs] <;>
      simp [happyOps, List.count_cons]
  | some c =>
    have hge := hgate c rfl
    refine ⟨(E.calcSN (E.readFile st (sp ++ fname) ftype).state).1,
      Or.inr ⟨c, rfl, rfl, ?_⟩, ?_, ?_, ?_, ?_⟩ <;>
      rw [processLine_eq_accept_floor E pstr c sp st fname ftype hs hge] <;>
      simp [happyOps, List.count_cons]

/-- Claim C3, witness: the order theorem evaluated on a unit engine with a
successful load and no configured floor. -/
theorem c3_engine_order_witness :
    ((unitEngine true 8 1).readFile () (([] : List Char) ++ lit ("a")) (lit ("b"))).success = true
    ∧ ∃ stG : Unit,
      ((none = (none : Option ℚ)
          ∧ stG = ((unitEngine true 8 1).readFile () (([] : List Char) ++ lit ("a")) (lit ("b"))).state
          ∧ (processLine (unitEngine true 8 1) pstr0 none [] () (lit ("a")) (lit ("b"))).ops
            = EngineOp.readFile (([] : List Char) ++ lit ("a")) (lit ("b"))
              :: happyOps (unitEngine true 8 1) stG)
        ∨ (∃ c, (none : Option ℚ) = some c
          ∧ stG = ((unitEngine true 8 1).calcSN ((unitEngine true 8 1).readFile ()
              (([] : List Char) ++ lit ("a")) (lit ("b"))).state).1
          ∧ (processLine (unitEngine true 8 1) pstr0 none [] () (lit ("a")) (lit ("b"))).ops
            = EngineOp.readFile (([] : List Char) ++ lit ("a")) (lit ("b")) :: EngineOp.calcSN
              :: happyOps (unitEngine true 8 1) stG))
      ∧ (processLine (unitEngine true 8 1) pstr0 none [] () (lit ("a")) (lit ("b"))).ops.count
          EngineOp.findRadialVelocity = 1
      ∧ (processLine (unitEngine true 8 1) pstr0 none [] () (lit ("a")) (lit ("b"))).accept
          = some (happyAccept (unitEngine true 8 1) stG (lit ("a")))
      ∧ (processLine (unitEngine true 8 1) pstr0 none [] () (lit ("a")) (lit ("b"))).reject = none
      ∧ (processLine (unitEngine true 8 1) pstr0 none [] () (lit ("a")) (lit ("b"))).state
          = afterSecondGuess (unitEngine true 8 1) stG :=
  ⟨rfl, c3_engine_order (unitEngine true 8 1) pstr0 none [] () (lit ("a")) (lit ("b")) rfl
    (by intro c hc; cases hc)⟩

/-- Claim C7: a successfully loaded spectrum whose measured signal-to-noise
value falls below the configured floor produces the reject row
filename-comma-formatTag-comma-measured-value with the measured number, a
narrative entry citing the comparison against the floor, no accept row, no
normalization and no classification call, and the loop advances to the
next descriptor. -/
theorem c7_sn_reject {σ : Type} (E : Engine σ) (pstr : PyStr) (c : ℚ)
    (sp : List Char) (st : σ) (fname ftype : List Char)
    (hs : (E.readFile st (sp ++ fname) ftype).success = true)
    (hlt : (E.calcSN (E.readFile st (sp ++ fname) ftype).state).2 < c) :
    (processLine E pstr (some c) sp st fname ftype).reject
      = some { fname := fname, ftype := ftype
               snValue := some (E.calcSN (E.readFile st (sp ++ fname) ftype).state).2 }
    ∧ (processLine E pstr (some c) sp st fname ftype).accept = none
    ∧ rejectRowStr pstr
        { fname := fname, ftype := ftype
          snValue := some (E.calcSN (E.readFile st (sp ++ fname) ftype).state).2 }
      = fname ++ ',' :: ftype
        ++ ',' :: pstr.str (E.calcSN (E.readFile st (sp ++ fname) ftype).state).2 ++ ['\n']
    ∧ (processLine E pstr (some c) sp st fname ftype).narrative
      = lit ("FILE: ") ++ fname ++ lit ("  REASON: S/N = ")
        ++ pstr.str (E.calcSN (E.readFile st (sp ++ fname) ftype).state).2
        ++ lit (" < ") ++ pstr.str c ++ ['\n']
    ∧ EngineOp.normalizeFlux ∉ (processLine E pstr (some c) sp st fname ftype).ops
    ∧ EngineOp.guessSpecType ∉ (processLine E pstr (some c) sp st fname ftype).ops
    ∧ ∀ line rest, parseLine line = some (fname, ftype) →
        runItems E pstr (some c) sp st (line :: rest)
          = (processLine E pstr (some c) sp st fname ftype
              :: (runItems E pstr (some c) sp
                  (processLine E pstr (some c) sp st fname ftype).state rest).1,
             (runItems E pstr (some c) sp
                (processLine E pstr (some c) sp st fname ftype).state rest).2) := by
  have hrun : ∀ line rest, parseLine line = some (fname, ftype) →
      runItems E pstr (some c) sp st (line :: rest)
        = (processLine E pstr (some c) sp st fname ftype
            :: (runItems E pstr (some c) sp
                (processLine E pstr (some c) sp st fname ftype).state rest).1,
           (runItems E pstr (some c) sp
              (processLine E pstr (some c) sp st fname ftype).state rest).2) := by
    intro line rest hline
    rw [runItems, hline]
  refine ⟨?_, ?_, rfl, ?_, ?_, ?_, hrun⟩ <;>
    rw [processLine_eq_sn_reject E pstr c sp st fname ftype hs hlt] <;>
    simp

/-- Claim C7, witness: a unit engine measuring signal-to-noise two against
floor five on the manifest line star002.fits comma obs. -/
theorem c7_sn_reject_witness :
    (((unitEngine true 2 1).readFile () (([] : List Char) ++ lit ("star002.fits"))
        (lit ("obs"))).success = true
      ∧ ((unitEngine true 2 1).calcSN ((unitEngine true 2 1).readFile ()
          (([] : List Char) ++ lit ("star002.fits")) (lit ("obs"))).state).2 < 5)
    ∧ (processLine (unitEngine true 2 1) pstr0 (some 5) [] () (lit ("star002.fits"))
        (lit ("obs"))).reject
      = some { fname := lit ("star002.fits"), ftype := lit ("obs")
               snValue := some ((unitEngine true 2 1).calcSN ((unitEngine true 2 1).readFile ()
                 (([] : List Char) ++ lit ("star002.fits")) (lit ("obs"))).state).2 } :=
  ⟨⟨rfl, by norm_num [unitEngine]⟩,
    (c7_sn_reject (unitEngine true 2 1) pstr0 5 [] () (lit ("star002.fits")) (lit ("obs"))
      rfl (by norm_num [unitEngine])).1⟩

/-- Claim C10: the quality gate is strict. A successfully loaded spectrum
whose measured signal-to-noise value is exactly equal to the configured
floor is not rejected: it proceeds through normalization and both
classification passes to an accept row. -/
theorem c10_sn_equal {σ : Type} (E : Engine σ) (pstr : PyStr) (c : ℚ)
    (sp : List Char) (st : σ) (fname ftype : List Char)
    (hs : (E.readFile st (sp ++ fname) ftype).success = true)
    (heq : (E.calcSN (E.readFile st (sp ++ fname) ftype).state).2 = c) :
    (processLine E pstr (some c) sp st fname ftype).accept
      = some (happyAccept E (E.calcSN (E.readFile st (sp ++ fname) ftype).state).1 fname)
    ∧ (processLine E pstr (some c) sp st fname ftype).reject = none
    ∧ (processLine E pstr (some c) sp st fname ftype).ops
      = EngineOp.readFile (sp ++ fname) ftype :: EngineOp.calcSN
        :: happyOps E ((E.calcSN (E.readFile st (sp ++ fname) ftype).state).1) := by
  have hge : ¬((E.calcSN (E.readFile st (sp ++ fname) ftype).state).2 < c) := by
    rw [heq]
    exact lt_irrefl c
  rw [processLine_eq_accept_floor E pstr c sp st fname ftype hs hge]
  exact ⟨rfl, rfl, rfl⟩

/-- Claim C10, witness: a unit engine measuring signal-to-noise exactly
five against floor five is accepted. -/
theorem c10_sn_equal_witness :
    (((unitEngine true 5 1).readFile () (([] : List Char) ++ lit ("a")) (lit ("b"))).success = true
      ∧ ((unitEngine true 5 1).calcSN ((unitEngine true 5 1).readFile ()
          (([] : List Char) ++ lit ("a")) (lit ("b"))).state).2 = 5)
    ∧ (processLine (unitEngine true 5 1) pstr0 (some 5) [] () (lit ("a")) (lit ("b"))).reject
        = none :=
  ⟨⟨rfl, rfl⟩,
    (c10_sn_equal (unitEngine true 5 1) pstr0 5 [] () (lit ("a")) (lit ("b")) rfl rfl).2.1⟩

/-! Helper lemmas about the batch loop and the event trace of main. -/

theorem runItems_complete {σ : Type} (E : Engine σ) (pstr : PyStr) (sncut : Option ℚ)
    (sp : List Char) :
    ∀ (lines : List (List Char)), (∀ line ∈ lines, (parseLine line).isSome) → ∀ st : σ,
      (runItems E pstr sncut sp st lines).2 = false
      ∧ (runItems E pstr sncut sp st lines).1.length = lines.length := by
  intro lines
  induction lines with
  | nil => intro _ st; simp [runItems]
  | cons line rest ih =>
    intro hparse st
    have hline := hparse line (List.mem_cons_self line rest)
    rcases Option.isSome_iff_exists.mp hline with ⟨⟨f, t⟩, hft⟩
    have ihr := ih (fun l hl => hparse l (List.mem_cons_of_mem line hl))
      (processLine E pstr sncut sp st f t).state
    rw [runItems, hft]
    simpa using ihr

theorem runItems_forall {σ : Type} (E : Engine σ) (pstr : PyStr) (sncut : Option ℚ)
    (sp : List Char) :
    ∀ (lines : List (List Char)) (st : σ) (it : ItemOut σ),
      it ∈ (runItems E pstr sncut sp st lines).1 →
      ∃ st' f t line, line ∈ lines ∧ parseLine line = some (f, t)
        ∧ it = processLine E pstr sncut sp st' f t := by
  intro lines
  induction lines with
  | nil => intro st it h; simp [runItems] at h
  | cons line rest ih =>
    intro st it h
    rw [runItems] at h
    cases hft : parseLine line with
    | none => rw [hft] at h; simp at h
    | some p =>
      rcases p with ⟨f, t⟩
      rw [hft] at h
      simp only [List.mem_cons] at h
      rcases h with h | h
      · exact ⟨st, f, t, line, List.mem_cons_self line rest, hft, h⟩
      · rcases ih (processLine E pstr sncut sp st f t).state it h with
          ⟨st', f', t', line', hmem, hparse', heq⟩
        exact ⟨st', f', t', line', List.mem_cons_of_mem line hmem, hparse', heq⟩

/-- Every event produced while processing an item is an engine call
recorded in the item's operation trace, or the write of a row. -/
theorem mem_itemEvents {σ : Type} (pstr : PyStr) (it : ItemOut σ) (e : Ev)
    (he : e ∈ itemEvents pstr it) :
    (∃ op ∈ it.ops, e = Ev.engineOp op)
    ∨ (∃ s, e = Ev.writeOut s) ∨ (∃ s, e = Ev.writeRej s) := by
  unfold itemEvents at he
  rcases List.mem_append.mp he with h | h
  · rcases List.mem_append.mp h with h | h
    · rcases List.mem_map.mp h with ⟨op, hop, rfl⟩
      exact Or.inl ⟨op, hop, rfl⟩
    · cases hr : it.reject with
      | none => rw [hr] at h; simp at h
      | some r =>
        rw [hr] at h
        simp at h
        exact Or.inr (Or.inr ⟨rejectRowStr pstr r, h⟩)
  · cases ha : it.accept with
    | none => rw [ha] at h; simp at h
    | some a =>
      rw [ha] at h
      simp at h
      exact Or.inr (Or.inl ⟨acceptRowStr pstr a, h⟩)

/-- Shape of the event trace of a completed non-skip run: the three opens
and the two header writes, then the per-item events, then the three
closes, then only notifications, the reviewer invocation and the
temporary-manifest cleanup. -/
theorem pyMain_shape {σ : Type} (E : Engine σ) (pstr : PyStr) (o : Opts)
    (lines : List (List Char)) (err : List Char) (st : σ)
    (heye : o.eyecheck = false)
    (hnoabort : (runItems E pstr o.sncut o.spectraPath st lines).2 = false) :
    ∃ tail,
      (pyMain E pstr o (some lines) err st).events
        = Ev.openIn :: Ev.openOut :: Ev.openRej :: Ev.writeOut header1 :: Ev.writeRej header2
          :: (((runItems E pstr o.sncut o.spectraPath st lines).1.map (itemEvents pstr)).flatten
            ++ Ev.closeIn :: Ev.closeOut :: Ev.closeRej :: tail)
      ∧ (∀ e ∈ tail, (∃ m, e = Ev.notify m) ∨ e = Ev.eyecheck ∨ e = Ev.removeFile o.infile)
      ∧ (pyMain E pstr o (some lines) err st).aborted = false := by
  have htemp : ∀ e ∈ tempCleanup o.infile, e = Ev.removeFile o.infile := by
    intro e he
    unfold tempCleanup at he
    by_cases hb : (basename o.infile).take 11 = lit ("temp_input_")
    · rw [if_pos hb] at he; simpa using he
    · rw [if_neg hb] at he; simp at he
  unfold pyMain
  rw [if_neg (by simp [heye])]
  simp only [hnoabort, Bool.false_eq_true, if_false]
  by_cases hrm : ((runItems E pstr o.sncut o.spectraPath st lines).1.map ItemOut.narrative).flatten = []
  · rw [if_pos hrm]
    refine ⟨Ev.eyecheck :: tempCleanup o.infile, by simp, ?_, rfl⟩
    intro e he
    rcases List.mem_cons.mp he with h | h
    · exact Or.inr (Or.inl h)
    · exact Or.inr (Or.inr (htemp e h))
  · rw [if_neg hrm]
    by_cases hcnt : countNL (rejectPreamble
        ++ ((runItems E pstr o.sncut o.spectraPath st lines).1.map ItemOut.narrative).flatten)
        = (lines.length - 1) + 4
    · rw [if_pos hcnt]
      refine ⟨Ev.notify (rejectPreamble
        ++ ((runItems E pstr o.sncut o.spectraPath st lines).1.map ItemOut.narrative).flatten)
        :: Ev.notify allBadMsg :: tempCleanup o.infile, by simp, ?_, rfl⟩
      intro e he
      rcases List.mem_cons.mp he with h | h
      · exact Or.inl ⟨_, h⟩
      · rcases List.mem_cons.mp h with h | h
        · exact Or.inl ⟨_, h⟩
        · exact Or.inr (Or.inr (htemp e h))
    · rw [if_neg hcnt]
      refine ⟨Ev.notify (rejectPreamble
        ++ ((runItems E pstr o.sncut o.spectraPath st lines).1.map ItemOut.narrative).flatten)
        :: Ev.eyecheck :: tempCleanup o.infile, by simp, ?_, rfl⟩
      intro e he
      rcases List.mem_cons.mp he with h | h
      · exact Or.inl ⟨_, h⟩
      · rcases List.mem_cons.mp h with h | h
        · exact Or.inr (Or.inl h)
        · exact Or.inr (Or.inr (htemp e h))

/-- Accept-file writes produced by the per-item events are exactly the
rendered accept rows of the items, in order. -/
theorem outWrites_flatten {σ : Type} (pstr : PyStr) (items : List (ItemOut σ)) :
    ((items.map (itemEvents pstr)).flatten).filterMap
        (fun e => match e with | Ev.writeOut s => some s | _ => none)
      = items.filterMap (fun it => it.accept.map (acceptRowStr pstr)) := by
  induction items with
  | nil => simp
  | cons it rest ih =>
    rw [List.map_cons, List.flatten_cons, List.filterMap_append, ih, List.filterMap_cons]
    unfold itemEvents
    rw [List.filterMap_append, List.filterMap_append, List.filterMap_map]
    have hops : it.ops.filterMap ((fun e => match e with | Ev.writeOut s => some s | _ => none)
        ∘ Ev.engineOp) = [] := by
      rw [List.filterMap_eq_nil_iff]
      intro a _
      rfl
    rw [hops]
    cases hr : it.reject with
    | none =>
      cases ha : it.accept with
      | none => simp
      | some a => simp
    | some r =>
      cases ha : it.accept with
      | none => simp
      | some a => simp

/-- Reject-file writes produced by the per-item events are exactly the
rendered reject rows of the items, in order. -/
theorem rejWrites_flatten {σ : Type} (pstr : PyStr) (items : List (ItemOut σ)) :
    ((items.map (itemEvents pstr)).flatten).filterMap
        (fun e => match e with | Ev.writeRej s => some s | _ => none)
      = items.filterMap (fun it => it.reject.map (rejectRowStr pstr)) := by
  induction items with
  | nil => simp
  | cons it rest ih =>
    rw [List.map_cons, List.flatten_cons, List.filterMap_append, ih, List.filterMap_cons]
    unfold itemEvents
    rw [List.filterMap_append, List.filterMap_append, List.filterMap_map]
    have hops : it.ops.filterMap ((fun e => match e with | Ev.writeRej s => some s | _ => none)
        ∘ Ev.engineOp) = [] := by
      rw [List.filterMap_eq_nil_iff]
      intro a _
      rfl
    rw [hops]
    cases hr : it.reject with
    | none =>
      cases ha : it.accept with
      | none => simp
      | some a => simp
    | some r =>
      cases ha : it.accept with
      | none => simp
      | some a => simp

theorem length_filterMap_accept {σ : Type} (pstr : PyStr) (items : List (ItemOut σ)) :
    (items.filterMap (fun it => it.accept.map (acceptRowStr pstr))).length
      = items.countP (fun it => it.accept.isSome) := by
  induction items with
  | nil => simp
  | cons it rest ih =>
    rw [List.filterMap_cons, List.countP_cons]
    cases ha : it.accept with
    | none => simp [ha, ih]
    | some a => simp [ha, ih]

theorem length_filterMap_reject {σ : Type} (pstr : PyStr) (items : List (ItemOut σ)) :
    (items.filterMap (fun it => it.reject.map (rejectRowStr pstr))).length
      = items.countP (fun it => it.reject.isSome) := by
  induction items with
  | nil => simp
  | cons it rest ih =>
    rw [List.filterMap_cons, List.countP_cons]
    cases hr : it.reject with
    | none => simp [hr, ih]
    | some r => simp [hr, ih]

/-- When every item carries exactly one row, the accept-row count and the
reject-row count partition the item count. -/
theorem countP_accept_add_reject {σ : Type} (items : List (ItemOut σ))
    (h : ∀ it ∈ items, (it.accept.isSome ∧ it.reject = none)
      ∨ (it.accept = none ∧ it.reject.isSome)) :
    items.countP (fun it => it.accept.isSome) + items.countP (fun it => it.reject.isSome)
      = items.length := by
  induction items with
  | nil => simp
  | cons it rest ih =>
    have hrest := ih (fun x hx => h x (List.mem_cons_of_mem it hx))
    rw [List.countP_cons, List.countP_cons]
    rcases h it (List.mem_cons_self it rest) with ⟨ha, hr⟩ | ⟨ha, hr⟩ <;>
      simp [ha, hr, List.length_cons] <;> omega

/-- Newline count of the accumulated rejection narrative equals the number
of rejected items, given the per-item newline counts. -/
theorem countNL_narrative_flatten {σ : Type} (items : List (ItemOut σ))
    (h : ∀ it ∈ items, countNL it.narrative = if it.reject.isSome then 1 else 0) :
    countNL ((items.map ItemOut.narrative).flatten)
      = items.countP (fun it => it.reject.isSome) := by
  induction items with
  | nil => simp [countNL]
  | cons it rest ih =>
    rw [List.map_cons, List.flatten_cons, countNL_append, List.countP_cons,
      h it (List.mem_cons_self it rest), ih (fun x hx => h x (List.mem_cons_of_mem it hx))]
    by_cases hr : it.reject.isSome
    · simp [hr]
      omega
    · simp [hr]

/-- Events of an aborted run: the opens and headers and the events of the
items completed before the abort; in particular no file is closed. -/
theorem pyMain_eq_abort {σ : Type} (E : Engine σ) (pstr : PyStr) (o : Opts)
    (lines : List (List Char)) (err : List Char) (st : σ)
    (heye : o.eyecheck = false)
    (hab : (runItems E pstr o.sncut o.spectraPath st lines).2 = true) :
    (pyMain E pstr o (some lines) err st).events
      = Ev.openIn :: Ev.openOut :: Ev.openRej :: Ev.writeOut header1
        :: Ev.writeRej header2
        :: ((runItems E pstr o.sncut o.spectraPath st lines).1.map (itemEvents pstr)).flatten
    ∧ (pyMain E pstr o (some lines) err st).aborted = true := by
  unfold pyMain
  rw [if_neg (by simp [heye])]
  simp [hab]

/-- Events of a completed run with an empty rejection narrative. -/
theorem pyMain_eq_clean {σ : Type} (E : Engine σ) (pstr : PyStr) (o : Opts)
    (lines : List (List Char)) (err : List Char) (st : σ)
    (heye : o.eyecheck = false)
    (hnoabort : (runItems E pstr o.sncut o.spectraPath st lines).2 = false)
    (hrm : ((runItems E pstr o.sncut o.spectraPath st lines).1.map ItemOut.narrative).flatten = []) :
    (pyMain E pstr o (some lines) err st).events
      = (Ev.openIn :: Ev.openOut :: Ev.openRej :: Ev.writeOut header1
          :: Ev.writeRej header2
          :: ((runItems E pstr o.sncut o.spectraPath st lines).1.map (itemEvents pstr)).flatten)
        ++ [Ev.closeIn, Ev.closeOut, Ev.closeRej]
        ++ Ev.eyecheck :: tempCleanup o.infile := by
  unfold pyMain
  rw [if_neg (by simp [heye])]
  simp only [hnoabort, Bool.false_eq_true, if_false]
  rw [if_pos hrm]

/-- Events of a completed run in which every line was rejected: the
consolidated narrative is surfaced, the all-bad notice is given, the
temporary manifest is cleaned up and the reviewer is never invoked. -/
theorem pyMain_eq_allbad {σ : Type} (E : Engine σ) (pstr : PyStr) (o : Opts)
    (lines : List (List Char)) (err : List Char) (st : σ)
    (heye : o.eyecheck = false)
    (hnoabort : (runItems E pstr o.sncut o.spectraPath st lines).2 = false)
    (hrm : ((runItems E pstr o.sncut o.spectraPath st lines).1.map ItemOut.narrative).flatten ≠ [])
    (hcnt : countNL (rejectPreamble
        ++ ((runItems E pstr o.sncut o.spectraPath st lines).1.map ItemOut.narrative).flatten)
      = (lines.length - 1) + 4) :
    (pyMain E pstr o (some lines) err st).events
      = (Ev.openIn :: Ev.openOut :: Ev.openRej :: Ev.writeOut header1
          :: Ev.writeRej header2
          :: ((runItems E pstr o.sncut o.spectraPath st lines).1.map (itemEvents pstr)).flatten)
        ++ [Ev.closeIn, Ev.closeOut, Ev.closeRej]
        ++ Ev.notify (rejectPreamble
            ++ ((runItems E pstr o.sncut o.spectraPath st lines).1.map ItemOut.narrative).flatten)
          :: Ev.notify allBadMsg :: tempCleanup o.infile := by
  unfold pyMain
  rw [if_neg (by simp [heye])]
  simp only [hnoabort, Bool.false_eq_true, if_false]
  rw [if_neg hrm, if_pos hcnt]

/-- Events of a completed run with a nonempty narrative whose newline
count does not hit the all-rejected test: the narrative is surfaced and
the reviewer is invoked. -/
theorem pyMain_eq_goreview {σ : Type} (E : Engine σ) (pstr : PyStr) (o : Opts)
    (lines : List (List Char)) (err : List Char) (st : σ)
    (heye : o.eyecheck = false)
    (hnoabort : (runItems E pstr o.sncut o.spectraPath st lines).2 = false)
    (hrm : ((runItems E pstr o.sncut o.spectraPath st lines).1.map ItemOut.narrative).flatten ≠ [])
    (hcnt : ¬(countNL (rejectPreamble
        ++ ((runItems E pstr o.sncut o.spectraPath st lines).1.map ItemOut.narrative).flatten)
      = (lines.length - 1) + 4)) :
    (pyMain E pstr o (some lines) err st).events
      = (Ev.openIn :: Ev.openOut :: Ev.openRej :: Ev.writeOut header1
          :: Ev.writeRej header2
          :: ((runItems E pstr o.sncut o.spectraPath st lines).1.map (itemEvents pstr)).flatten)
        ++ [Ev.closeIn, Ev.closeOut, Ev.closeRej]
        ++ Ev.notify (rejectPreamble
            ++ ((runItems E pstr o.sncut o.spectraPath st lines).1.map ItemOut.narrative).flatten)
          :: Ev.eyecheck :: tempCleanup o.infile := by
  unfold pyMain
  rw [if_neg (by simp [heye])]
  simp only [hnoabort, Bool.false_eq_true, if_false]
  rw [if_neg hrm, if_neg hcnt]

/-- The reviewer-invocation event never occurs among the per-item events. -/
theorem eyecheck_notin_flatten {σ : Type} (pstr : PyStr) (items : List (ItemOut σ)) :
    Ev.eyecheck ∉ (items.map (itemEvents pstr)).flatten := by
  intro h
  rcases List.mem_flatten.mp h with ⟨evl, hevl, he⟩
  rcases List.mem_map.mp hevl with ⟨it, _, rfl⟩
  rcases mem_itemEvents pstr it Ev.eyecheck he with ⟨op, _, heq⟩ | ⟨s, heq⟩ | ⟨s, heq⟩ <;>
    cases heq

/-- An engine-call event of a non-skip run always comes from the operation
trace of one of the processed items. -/
theorem engineOp_mem_pyMain {σ : Type} (E : Engine σ) (pstr : PyStr) (o : Opts)
    (lines : List (List Char)) (err : List Char) (st : σ) (op : EngineOp)
    (heye : o.eyecheck = false)
    (h : Ev.engineOp op ∈ (pyMain E pstr o (some lines) err st).events) :
    ∃ it ∈ (runItems E pstr o.sncut o.spectraPath st lines).1, op ∈ it.ops := by
  have hflat : Ev.engineOp op
      ∈ ((runItems E pstr o.sncut o.spectraPath st lines).1.map (itemEvents pstr)).flatten →
      ∃ it ∈ (runItems E pstr o.sncut o.spectraPath st lines).1, op ∈ it.ops := by
    intro hm
    rcases List.mem_flatten.mp hm with ⟨evl, hevl, he⟩
    rcases List.mem_map.mp hevl with ⟨it, hit, rfl⟩
    rcases mem_itemEvents pstr it (Ev.engineOp op) he with ⟨op', hop', heq⟩ | ⟨s, heq⟩ | ⟨s, heq⟩
    · cases heq
      exact ⟨it, hit, hop'⟩
    · cases heq
    · cases heq
  have htemp : Ev.engineOp op ∉ tempCleanup o.infile := by
    intro hm
    unfold tempCleanup at hm
    by_cases hb : (basename o.infile).take 11 = lit ("temp_input_")
    · rw [if_pos hb] at hm
      simp at hm
    · rw [if_neg hb] at hm
      simp at hm
  by_cases hab : (runItems E pstr o.sncut o.spectraPath st lines).2 = true
  · rw [(pyMain_eq_abort E pstr o lines err st heye hab).1] at h
    simp only [List.mem_cons] at h
    rcases h with h | h | h | h | h | h
    · cases h
    · cases h
    · cases h
    · cases h
    · cases h
    · exact hflat h
  · have hnoabort : (runItems E pstr o.sncut o.spectraPath st lines).2 = false := by
      simpa using hab
    rcases pyMain_shape E pstr o lines err st heye hnoabort with ⟨tail, hev, htail, _⟩
    rw [hev] at h
    simp only [List.mem_cons, List.mem_append] at h
    rcases h with h | h | h | h | h | h
    · cases h
    · cases h
    · cases h
    · cases h
    · cases h
    · rcases h with h | h
      · exact hflat h
      · rcases h with h | h | h | h
        · cases h
        · cases h
        · cases h
        · rcases htail _ h with ⟨m, heq⟩ | heq | heq <;> cases heq

/-! Claims about the whole batch run. -/

/-- Claim C1: in the non-skip mode, when every manifest line parses, the
run completes, the accept file holds its header followed by exactly the
rendered accept rows and the reject file its header followed by exactly
the rendered reject rows, each processed line carries exactly one row, the
data-row counts sum to the number of manifest lines, and a line is
rejected precisely when its load fails or a configured signal-to-noise
floor exceeds the measured value. -/
theorem c1_partition {σ : Type} (E : Engine σ) (pstr : PyStr) (o : Opts)
    (lines : List (List Char)) (err : List Char) (st : σ)
    (heye : o.eyecheck = false)
    (hparse : ∀ line ∈ lines, (parseLine line).isSome) :
    (pyMain E pstr o (some lines) err st).aborted = false
    ∧ outWrites (pyMain E pstr o (some lines) err st)
      = header1 :: (runItems E pstr o.sncut o.spectraPath st lines).1.filterMap
          (fun it => it.accept.map (acceptRowStr pstr))
    ∧ rejWrites (pyMain E pstr o (some lines) err st)
      = header2 :: (runItems E pstr o.sncut o.spectraPath st lines).1.filterMap
          (fun it => it.reject.map (rejectRowStr pstr))
    ∧ (outWrites (pyMain E pstr o (some lines) err st)).length - 1
      + ((rejWrites (pyMain E pstr o (some lines) err st)).length - 1) = lines.length
    ∧ (∀ it ∈ (runItems E pstr o.sncut o.spectraPath st lines).1,
        (it.accept.isSome ∧ it.reject = none) ∨ (it.accept = none ∧ it.reject.isSome))
    ∧ (∀ (st' : σ) (f t : List Char),
        (processLine E pstr o.sncut o.spectraPath st' f t).reject.isSome = true ↔
          ((E.readFile st' (o.spectraPath ++ f) t).success = false
            ∨ ∃ c, o.sncut = some c
              ∧ (E.calcSN (E.readFile st' (o.spectraPath ++ f) t).state).2 < c)) := by
  have hcomp := runItems_complete E pstr o.sncut o.spectraPath lines hparse st
  rcases pyMain_shape E pstr o lines err st heye hcomp.1 with ⟨tail, hev, htail, habort⟩
  have hone : ∀ it ∈ (runItems E pstr o.sncut o.spectraPath st lines).1,
      (it.accept.isSome ∧ it.reject = none) ∨ (it.accept = none ∧ it.reject.isSome) := by
    intro it hit
    rcases runItems_forall E pstr o.sncut o.spectraPath lines st it hit with
      ⟨st', f, t, line, _, _, heq⟩
    rw [heq]
    exact processLine_one_row E pstr o.sncut o.spectraPath st' f t
  have htailOut : tail.filterMap
      (fun e => match e with | Ev.writeOut s => some s | _ => none) = [] := by
    rw [List.filterMap_eq_nil_iff]
    intro e he
    rcases htail e he with ⟨m, rfl⟩ | rfl | rfl <;> rfl
  have htailRej : tail.filterMap
      (fun e => match e with | Ev.writeRej s => some s | _ => none) = [] := by
    rw [List.filterMap_eq_nil_iff]
    intro e he
    rcases htail e he with ⟨m, rfl⟩ | rfl | rfl <;> rfl
  have hout : outWrites (pyMain E pstr o (some lines) err st)
      = header1 :: (runItems E pstr o.sncut o.spectraPath st lines).1.filterMap
          (fun it => it.accept.map (acceptRowStr pstr)) := by
    unfold outWrites
    rw [hev]
    rw [show ∀ (l : List Ev), (Ev.openIn :: Ev.openOut :: Ev.openRej :: Ev.writeOut header1
        :: Ev.writeRej header2 :: l).filterMap
          (fun e => match e with | Ev.writeOut s => some s | _ => none)
        = header1 :: l.filterMap (fun e => match e with | Ev.writeOut s => some s | _ => none)
      from fun l => rfl]
    rw [List.filterMap_append]
    rw [show ∀ (l : List Ev), (Ev.closeIn :: Ev.closeOut :: Ev.closeRej :: l).filterMap
          (fun e => match e with | Ev.writeOut s => some s | _ => none)
        = l.filterMap (fun e => match e with | Ev.writeOut s => some s | _ => none)
      from fun l => rfl]
    rw [htailOut, outWrites_flatten, List.append_nil]
  have hrej : rejWrites (pyMain E pstr o (some lines) err st)
      = header2 :: (runItems E pstr o.sncut o.spectraPath st lines).1.filterMap
          (fun it => it.reject.map (rejectRowStr pstr)) := by
    unfold rejWrites
    rw [hev]
    rw [show ∀ (l : List Ev), (Ev.openIn :: Ev.openOut :: Ev.openRej :: Ev.writeOut header1
        :: Ev.writeRej header2 :: l).filterMap
          (fun e => match e with | Ev.writeRej s => some s | _ => none)
        = header2 :: l.filterMap (fun e => match e with | Ev.writeRej s => some s | _ => none)
      from fun l => rfl]
    rw [List.filterMap_append]
    rw [show ∀ (l : List Ev), (Ev.closeIn :: Ev.closeOut :: Ev.closeRej :: l).filterMap
          (fun e => match e with | Ev.writeRej s => some s | _ => none)
        = l.filterMap (fun e => match e with | Ev.writeRej s => some s | _ => none)
      from fun l => rfl]
    rw [htailRej, rejWrites_flatten, List.append_nil]
  refine ⟨habort, hout, hrej, ?_, hone,
    fun st' f t => processLine_reject_iff E pstr o.sncut o.spectraPath st' f t⟩
  rw [hout, hrej]
  simp only [List.length_cons]
  rw [length_filterMap_accept, length_filterMap_reject]
  have hsum := countP_accept_add_reject _ hone
  have hlen := hcomp.2
  omega

/-- Claim C1, witness: a one-line manifest processed by a unit engine with
a successful load and no floor configured. -/
theorem c1_partition_witness :
    (∀ line ∈ [lit ("a b")], (parseLine line).isSome)
    ∧ (pyMain (unitEngine true 8 1) pstr0 o0 (some [lit ("a b")]) [] ()).aborted = false :=
  ⟨by decide, (c1_partition (unitEngine true 8 1) pstr0 o0 [lit ("a b")] [] () rfl
    (by decide)).1⟩

/-- Claim C6: in the non-skip mode, when the run completes, the event
trace opens the two output files at batch start and writes the fixed
header of each before any data record; the middle of the trace holds only
engine calls and data-row writes; all three files are closed right after
the loop; and after the closes only notifications, the reviewer
invocation and the temporary-manifest cleanup occur, on every exit path
including the all-rejected early return. -/
theorem c6_headers_close {σ : Type} (E : Engine σ) (pstr : PyStr) (o : Opts)
    (lines : List (List Char)) (err : List Char) (st : σ)
    (heye : o.eyecheck = false)
    (hparse : ∀ line ∈ lines, (parseLine line).isSome) :
    ∃ mid tail,
      (pyMain E pstr o (some lines) err st).events
        = Ev.openIn :: Ev.openOut :: Ev.openRej :: Ev.writeOut header1 :: Ev.writeRej header2
          :: (mid ++ Ev.closeIn :: Ev.closeOut :: Ev.closeRej :: tail)
      ∧ (∀ e ∈ mid, (∃ op, e = Ev.engineOp op)
          ∨ (∃ s, e = Ev.writeOut s) ∨ (∃ s, e = Ev.writeRej s))
      ∧ (∀ e ∈ tail, (∃ m, e = Ev.notify m) ∨ e = Ev.eyecheck ∨ e = Ev.removeFile o.infile)
      ∧ (pyMain E pstr o (some lines) err st).aborted = false := by
  have hcomp := runItems_complete E pstr o.sncut o.spectraPath lines hparse st
  rcases pyMain_shape E pstr o lines err st heye hcomp.1 with ⟨tail, hev, htail, habort⟩
  refine ⟨((runItems E pstr o.sncut o.spectraPath st lines).1.map (itemEvents pstr)).flatten,
    tail, hev, ?_, htail, habort⟩
  intro e he
  rcases List.mem_flatten.mp he with ⟨evl, hevl, hee⟩
  rcases List.mem_map.mp hevl with ⟨it, _, rfl⟩
  rcases mem_itemEvents pstr it e hee with ⟨op, _, heq⟩ | h | h
  · exact Or.inl ⟨op, heq⟩
  · exact Or.inr (Or.inl h)
  · exact Or.inr (Or.inr h)

/-- Claim C6, witness: the shape theorem evaluated on a one-line manifest
and a unit engine. -/
theorem c6_headers_close_witness :
    (∀ line ∈ [lit ("a b")], (parseLine line).isSome)
    ∧ ∃ mid tail,
      (pyMain (unitEngine true 8 1) pstr0 o0 (some [lit ("a b")]) [] ()).events
        = Ev.openIn :: Ev.openOut :: Ev.openRej :: Ev.writeOut header1 :: Ev.writeRej header2
          :: (mid ++ Ev.closeIn :: Ev.closeOut :: Ev.closeRej :: tail)
      ∧ (∀ e ∈ mid, (∃ op, e = Ev.engineOp op)
          ∨ (∃ s, e = Ev.writeOut s) ∨ (∃ s, e = Ev.writeRej s))
      ∧ (∀ e ∈ tail, (∃ m, e = Ev.notify m) ∨ e = Ev.eyecheck ∨ e = Ev.removeFile o0.infile)
      ∧ (pyMain (unitEngine true 8 1) pstr0 o0 (some [lit ("a b")]) [] ()).aborted = false :=
  ⟨by decide, c6_headers_close (unitEngine true 8 1) pstr0 o0 [lit ("a b")] [] () rfl (by decide)⟩

/-- Claim C9: when opening the manifest raises IOError, main notifies the
user with the rendered error and returns: the event trace is exactly that
one notification, so neither output file is opened or written, no engine
operation runs, and the reviewer is not invoked. -/
theorem c9_infile_error {σ : Type} (E : Engine σ) (pstr : PyStr) (o : Opts)
    (err : List Char) (st : σ) (heye : o.eyecheck = false) :
    (pyMain E pstr o none err st).events = [Ev.notify err]
    ∧ (pyMain E pstr o none err st).aborted = false
    ∧ Ev.openOut ∉ (pyMain E pstr o none err st).events
    ∧ Ev.openRej ∉ (pyMain E pstr o none err st).events
    ∧ (∀ s, Ev.writeOut s ∉ (pyMain E pstr o none err st).events)
    ∧ (∀ s, Ev.writeRej s ∉ (pyMain E pstr o none err st).events)
    ∧ (∀ op, Ev.engineOp op ∉ (pyMain E pstr o none err st).events)
    ∧ Ev.eyecheck ∉ (pyMain E pstr o none err st).events := by
  have h : pyMain E pstr o none err st = { events := [Ev.notify err], aborted := false } := by
    unfold pyMain
    rw [if_neg (by simp [heye])]
  rw [h]
  refine ⟨rfl, rfl, by simp, by simp, ?_, ?_, ?_, by simp⟩ <;> intro x <;> simp

/-- Claim C9, witness: the manifest-open failure evaluated at a concrete
error message. -/
theorem c9_infile_error_witness :
    o0.eyecheck = false
    ∧ (pyMain (unitEngine true 8 1) pstr0 o0 none (lit ("no such file")) ()).events
      = [Ev.notify (lit ("no such file"))] :=
  ⟨rfl, (c9_infile_error (unitEngine true 8 1) pstr0 o0 (lit ("no such file")) () rfl).1⟩

/-- Claim C4, evaluation at the failing input. The claim states that no
error from a single manifest line aborts the batch, in particular for a
line holding a single whitespace-delimited token. The code contradicts
this: on the manifest whose first line is the single token spectrum.fits,
the tuple unpacking of rsplit raises ValueError, the run aborts, no item
is processed, the second and well-formed line a-space-b is never reached,
only the headers were written and no file is closed. -/
theorem c4_single_token_aborts :
    parseLine (lit ("spectrum.fits")) = none
    ∧ (pyMain (unitEngine true 8 1) pstr0 o0
        (some [lit ("spectrum.fits"), lit ("a b")]) [] ()).aborted = true
    ∧ (runItems (unitEngine true 8 1) pstr0 o0.sncut o0.spectraPath ()
        [lit ("spectrum.fits"), lit ("a b")]).1.length = 0
    ∧ outWrites (pyMain (unitEngine true 8 1) pstr0 o0
        (some [lit ("spectrum.fits"), lit ("a b")]) [] ()) = [header1]
    ∧ rejWrites (pyMain (unitEngine true 8 1) pstr0 o0
        (some [lit ("spectrum.fits"), lit ("a b")]) [] ()) = [header2]
    ∧ Ev.closeOut ∉ (pyMain (unitEngine true 8 1) pstr0 o0
        (some [lit ("spectrum.fits"), lit ("a b")]) [] ()).events := by
  decide

/-- Claim C8: when no signal-to-noise floor is configured, the
signal-to-noise computation is never invoked anywhere in the run, every
successfully loaded spectrum is accepted, and every reject row is a
load-failure row rendering its value as N/A. -/
theorem c8_no_sncut {σ : Type} (E : Engine σ) (pstr : PyStr) (o : Opts)
    (lines : List (List Char)) (err : List Char) (st : σ)
    (hsc : o.sncut = none) (heye : o.eyecheck = false) :
    Ev.engineOp EngineOp.calcSN ∉ (pyMain E pstr o (some lines) err st).events
    ∧ ∀ (st' : σ) (f t : List Char),
        EngineOp.calcSN ∉ (processLine E pstr o.sncut o.spectraPath st' f t).ops
        ∧ ((E.readFile st' (o.spectraPath ++ f) t).success = true →
            (processLine E pstr o.sncut o.spectraPath st' f t).accept.isSome = true
            ∧ (processLine E pstr o.sncut o.spectraPath st' f t).reject = none)
        ∧ (∀ rr, (processLine E pstr o.sncut o.spectraPath st' f t).reject = some rr →
            rr.snValue = none
            ∧ rejectRowStr pstr rr = f ++ ',' :: t ++ ',' :: lit ("N/A") ++ ['\n']) := by
  have hitem : ∀ (st' : σ) (f t : List Char),
      EngineOp.calcSN ∉ (processLine E pstr o.sncut o.spectraPath st' f t).ops
      ∧ ((E.readFile st' (o.spectraPath ++ f) t).success = true →
          (processLine E pstr o.sncut o.spectraPath st' f t).accept.isSome = true
          ∧ (processLine E pstr o.sncut o.spectraPath st' f t).reject = none)
      ∧ (∀ rr, (processLine E pstr o.sncut o.spectraPath st' f t).reject = some rr →
          rr.snValue = none
          ∧ rejectRowStr pstr rr = f ++ ',' :: t ++ ',' :: lit ("N/A") ++ ['\n']) := by
    intro st' f t
    rw [hsc]
    by_cases hsucc : (E.readFile st' (o.spectraPath ++ f) t).success = false
    · rw [processLine_eq_load_fail E pstr none o.spectraPath st' f t hsucc]
      refine ⟨by simp, ?_, ?_⟩
      · intro htrue
        rw [htrue] at hsucc
        cases hsucc
      · intro rr hrr
        simp only [Option.some.injEq] at hrr
        rw [← hrr]
        exact ⟨rfl, rfl⟩
    · have hsucc' : (E.readFile st' (o.spectraPath ++ f) t).success = true := by simpa using hsucc
      rw [processLine_eq_accept_nofloor E pstr o.spectraPath st' f t hsucc']
      refine ⟨by simp [happyOps], fun _ => ⟨rfl, rfl⟩, ?_⟩
      intro rr hrr
      simp at hrr
  refine ⟨?_, hitem⟩
  intro hmem
  rcases engineOp_mem_pyMain E pstr o lines err st EngineOp.calcSN heye hmem with ⟨it, hit, hop⟩
  rcases runItems_forall E pstr o.sncut o.spectraPath lines st it hit with
    ⟨st', f, t, line, _, _, heq⟩
  have hno := (hitem st' f t).1
  rw [heq] at hop
  exact hno hop

/-- Claim C8, witness: a run with no floor configured over a one-line
manifest never records a signal-to-noise computation. -/
theorem c8_no_sncut_witness :
    o0.sncut = none
    ∧ Ev.engineOp EngineOp.calcSN
      ∉ (pyMain (unitEngine true 8 1) pstr0 o0 (some [lit ("a b")]) [] ()).events :=
  ⟨rfl, (c8_no_sncut (unitEngine true 8 1) pstr0 o0 [lit ("a b")] [] () rfl rfl).1⟩

/-- Claim C2, counterexample. On an empty manifest the all-rejected
condition as the claim operationalizes it holds vacuously: the number of
rejection-narrative entries, zero, equals the number of descriptors
processed, zero. Yet the code notifies nobody, evaluates no string test,
and invokes the reviewer. -/
theorem c2_counterexample :
    ((runItems (unitEngine true 8 1) pstr0 o0.sncut o0.spectraPath ()
        ([] : List (List Char))).1.countP (fun it => it.reject.isSome)
      = (runItems (unitEngine true 8 1) pstr0 o0.sncut o0.spectraPath ()
        ([] : List (List Char))).1.length)
    ∧ Ev.eyecheck
      ∈ (pyMain (unitEngine true 8 1) pstr0 o0 (some ([] : List (List Char))) [] ()).events := by
  decide

/-- Claim C2, amended: for every manifest holding at least one descriptor
(the empty manifest is the counterexample) that is processed without
abort, the code's string test, that the newline count of the prepended
rejection message equals the final loop index plus four, holds exactly
when the number of rejection-narrative entries equals the number of
descriptors processed; in that all-rejected case the user is notified
that all spectra were bad, the reviewer is not invoked, and the manifest
file is removed when its basename begins with the temporary-input tag;
when at least one descriptor was accepted the reviewer is invoked. -/
theorem c2_all_rejected {σ : Type} (E : Engine σ) (pstr : PyStr) (o : Opts)
    (lines : List (List Char)) (err : List Char) (st : σ)
    (heye : o.eyecheck = false) (hne : lines ≠ [])
    (hparse : ∀ line ∈ lines, (parseLine line).isSome)
    (hnl : ∀ line ∈ lines, ('\n' : Char) ∉ line)
    (hstr : ∀ q : ℚ, ('\n' : Char) ∉ pstr.str q) :
    (countNL (rejectPreamble
        ++ ((runItems E pstr o.sncut o.spectraPath st lines).1.map ItemOut.narrative).flatten)
      = (lines.length - 1) + 4
      ↔ (runItems E pstr o.sncut o.spectraPath st lines).1.countP (fun it => it.reject.isSome)
        = (runItems E pstr o.sncut o.spectraPath st lines).1.length)
    ∧ ((runItems E pstr o.sncut o.spectraPath st lines).1.countP (fun it => it.reject.isSome)
        = (runItems E pstr o.sncut o.spectraPath st lines).1.length →
        Ev.notify allBadMsg ∈ (pyMain E pstr o (some lines) err st).events
        ∧ Ev.eyecheck ∉ (pyMain E pstr o (some lines) err st).events
        ∧ ((basename o.infile).take 11 = lit ("temp_input_") →
            Ev.removeFile o.infile ∈ (pyMain E pstr o (some lines) err st).events))
    ∧ ((∃ it ∈ (runItems E pstr o.sncut o.spectraPath st lines).1, it.accept.isSome = true) →
        Ev.eyecheck ∈ (pyMain E pstr o (some lines) err st).events) := by
  have hcomp := runItems_complete E pstr o.sncut o.spectraPath lines hparse st
  have hnoabort := hcomp.1
  have hlen := hcomp.2
  have hn1 : 0 < lines.length := List.length_pos.mpr hne
  have hcnts : ∀ it ∈ (runItems E pstr o.sncut o.spectraPath st lines).1,
      countNL it.narrative = if it.reject.isSome then 1 else 0 := by
    intro it hit
    rcases runItems_forall E pstr o.sncut o.spectraPath lines st it hit with
      ⟨st', f, t, line, hlmem, hpl, rfl⟩
    exact processLine_countNL E pstr o.sncut o.spectraPath st' f t
      (newline_notin_parseLine_fname hpl (hnl line hlmem)) hstr
  have hone : ∀ it ∈ (runItems E pstr o.sncut o.spectraPath st lines).1,
      (it.accept.isSome ∧ it.reject = none) ∨ (it.accept = none ∧ it.reject.isSome) := by
    intro it hit
    rcases runItems_forall E pstr o.sncut o.spectraPath lines st it hit with
      ⟨st', f, t, line, _, _, heq⟩
    rw [heq]
    exact processLine_one_row E pstr o.sncut o.spectraPath st' f t
  have h3 : countNL rejectPreamble = 3 := by decide
  have hfull : countNL (rejectPreamble
      ++ ((runItems E pstr o.sncut o.spectraPath st lines).1.map ItemOut.narrative).flatten)
      = 3 + (runItems E pstr o.sncut o.spectraPath st lines).1.countP
          (fun it => it.reject.isSome) := by
    rw [countNL_append, h3, countNL_narrative_flatten _ hcnts]
  have hkle := List.countP_le_length (p := fun it => it.reject.isSome)
    (l := (runItems E pstr o.sncut o.spectraPath st lines).1)
  refine ⟨?_, ?_, ?_⟩
  · rw [hfull]
    constructor
    · intro h
      omega
    · intro h
      omega
  · intro hall
    have hitemsne : (runItems E pstr o.sncut o.spectraPath st lines).1 ≠ [] := by
      intro hI
      rw [hI] at hlen
      simp at hlen
      omega
    have hrm : ((runItems E pstr o.sncut o.spectraPath st lines).1.map ItemOut.narrative).flatten
        ≠ [] := by
      intro hrmnil
      rcases List.exists_mem_of_ne_nil _ hitemsne with ⟨it0, hit0⟩
      have hrej0 : it0.reject.isSome = true :=
        List.countP_eq_length.mp hall it0 hit0
      have hnn : it0.narrative ≠ [] := by
        rcases runItems_forall E pstr o.sncut o.spectraPath lines st it0 hit0 with
          ⟨st', f, t, line, _, _, heq⟩
        rw [heq] at hrej0 ⊢
        exact (processLine_narrative_ne E pstr o.sncut o.spectraPath st' f t).mp hrej0
      exact hnn (List.flatten_eq_nil_iff.mp hrmnil _
        (List.mem_map_of_mem ItemOut.narrative hit0))
    have hcnt : countNL (rejectPreamble
        ++ ((runItems E pstr o.sncut o.spectraPath st lines).1.map ItemOut.narrative).flatten)
        = (lines.length - 1) + 4 := by
      rw [hfull]
      omega
    have hevents := pyMain_eq_allbad E pstr o lines err st heye hnoabort hrm hcnt
    refine ⟨?_, ?_, ?_⟩
    · rw [hevents]
      simp
    · rw [hevents]
      intro hmem
      rcases List.mem_append.mp hmem with h | h
      · rcases List.mem_append.mp h with h | h
        · simp only [List.mem_cons] at h
          rcases h with h | h | h | h | h | h
          · cases h
          · cases h
          · cases h
          · cases h
          · cases h
          · exact eyecheck_notin_flatten pstr _ h
        · simp at h
      · rcases List.mem_cons.mp h with h | h
        · cases h
        · rcases List.mem_cons.mp h with h | h
          · cases h
          · unfold tempCleanup at h
            by_cases hb : (basename o.infile).take 11 = lit ("temp_input_")
            · rw [if_pos hb] at h
              simp at h
            · rw [if_neg hb] at h
              simp at h
    · intro hb
      rw [hevents]
      simp [tempCleanup, hb]
  · rintro ⟨it0, hit0, hacc⟩
    have hnotall : (runItems E pstr o.sncut o.spectraPath st lines).1.countP
        (fun it => it.reject.isSome)
        ≠ (runItems E pstr o.sncut o.spectraPath st lines).1.length := by
      intro hkl
      have hrej0 : it0.reject.isSome = true :=
        List.countP_eq_length.mp hkl it0 hit0
      rcases hone it0 hit0 with ⟨ha, hr⟩ | ⟨ha, hr⟩
      · rw [hr] at hrej0
        simp at hrej0
      · rw [ha] at hacc
        simp at hacc
    by_cases hrm : ((runItems E pstr o.sncut o.spectraPath st lines).1.map
        ItemOut.narrative).flatten = []
    · rw [pyMain_eq_clean E pstr o lines err st heye hnoabort hrm]
      simp
    · have hcnt : ¬(countNL (rejectPreamble
          ++ ((runItems E pstr o.sncut o.spectraPath st lines).1.map ItemOut.narrative).flatten)
          = (lines.length - 1) + 4) := by
        rw [hfull]
        intro h
        apply hnotall
        omega
      rw [pyMain_eq_goreview E pstr o lines err st heye hnoabort hrm hcnt]
      simp

/-- Claim C2, witness: a one-line manifest whose only spectrum fails to
load, so everything is rejected; the string test holds and the reviewer
is not invoked. -/
theorem c2_all_rejected_witness :
    ([lit ("a b")] ≠ ([] : List (List Char)))
    ∧ (countNL (rejectPreamble
        ++ ((runItems (unitEngine false 0 0) pstr0 o0.sncut o0.spectraPath ()
            [lit ("a b")]).1.map ItemOut.narrative).flatten)
      = (([lit ("a b")] : List (List Char)).length - 1) + 4
      ↔ (runItems (unitEngine false 0 0) pstr0 o0.sncut o0.spectraPath ()
          [lit ("a b")]).1.countP (fun it => it.reject.isSome)
        = (runItems (unitEngine false 0 0) pstr0 o0.sncut o0.spectraPath ()
            [lit ("a b")]).1.length) :=
  ⟨by simp, (c2_all_rejected (unitEngine false 0 0) pstr0 o0 [lit ("a b")] [] () rfl
    (by simp) (by decide) (by decide) (fun _ => by simp [pstr0])).1⟩

end PyHammer
